import Mathlib

/-!
Verification of the rfsling serial bridge protocol (src/include/nRF24L01.h).

The header declares the protocol constants, the two state enumerations
(board_state_e, serial_state_e), the uint32_serial_u union and the
SerialIOState class interface.  The member-function bodies are not part of
src/, so the behaviour of flushSerial, handshake, setConfig, setFileChunk,
softReset and getExpectedRadioState is modelled from the specification
(sections 4.1 to 4.5, 6 and 7 of spec.md); every such definition carries a
doc comment starting with the words Modelled from the spec.  All constants,
enumerations and bit-field widths are taken directly from the source.
-/

/-- Source constant FLUSH_CONST (line 246): byte value expected while
flushing the serial buffer. -/
def FLUSH_CONST : Nat := 9

/-- Source constant FLUSH_COUNT (line 247): number of sequential
FLUSH_CONST bytes needed to switch serial_state_e to READING. -/
def FLUSH_COUNT : Nat := 5

/-- Source constant CHANNEL_BYTES (line 248). -/
def CHANNEL_BYTES : Nat := 1

/-- Source constant ADDRESS_BYTES (line 249). -/
def ADDRESS_BYTES : Nat := 4

/-- Source constant MAX_CHUNK_CHARS (line 257): capacity of the file_chunk
buffer. -/
def MAX_CHUNK_CHARS : Nat := 224

/-- Source constant EXTENSION_BYTES (line 258): width of the file_extension
buffer. -/
def EXTENSION_BYTES : Nat := 10

/-- Source constant HANDSHAKE_CHAR (line 260): the tab character, byte
value 9, used to communicate state changes between the board and the
computer. -/
def HANDSHAKE_CHAR : Nat := 9

/-- Source constant NUM_CHANNELS (line 37): the radio has 125 channels,
numbered 0 to 124. -/
def NUM_CHANNELS : Nat := 125

/-- Source constant RX_MODE (line 265). -/
def RX_MODE : Nat := 0

/-- Source constant TX_MODE (line 266). -/
def TX_MODE : Nat := 1

/-- Source enumeration board_state_e (lines 282-286): whether the board is
being configured or is ready to send and receive files. -/
inductive board_state_e
  | CONFIG
  | READY
deriving DecidableEq, Repr

/-- Source enumeration serial_state_e (lines 292-296): whether the serial
input is trusted (READING) or being flushed (FLUSHING). -/
inductive serial_state_e
  | FLUSHING
  | READING
deriving DecidableEq, Repr

/-- The bytes view of the source union uint32_serial_u (lines 272-275):
the four bytes of a 32-bit number, least significant first (the target is
little endian; 65536 is 256 squared, 16777216 is 256 cubed). -/
def uint32_serial_bytes (n : Nat) : List Nat :=
  [n % 256, n / 256 % 256, n / 65536 % 256, n / 16777216 % 256]

/-- The num view of the source union uint32_serial_u (lines 272-275):
assembling four bytes, least significant first, into the 32-bit value. -/
def uint32_serial_num (b0 b1 b2 b3 : Nat) : Nat :=
  b0 + 256 * b1 + 65536 * b2 + 16777216 * b3

/-- The private state of the source class (lines 336-350): board state,
serial state, channel, address, extension buffer, next chunk size and chunk
buffer.  Buffers are modelled as byte lists. -/
structure SerialIOState where
  board_state : board_state_e
  serial_state : serial_state_e
  input_channel : Nat
  input_address : Nat
  file_extension : List Nat
  next_chunk_size : Nat
  file_chunk : List Nat
deriving DecidableEq, Repr

/-- The member initialisers from the source (lines 340-349): board_state
starts CONFIG, serial_state starts FLUSHING, input_channel and
next_chunk_size start 0; input_address, file_extension and file_chunk have
no initialiser, so their initial contents a0, e0 and k0 are indeterminate
and taken as parameters. -/
def initSerialIOState (a0 : Nat) (e0 k0 : List Nat) : SerialIOState :=
  { board_state := board_state_e.CONFIG
    serial_state := serial_state_e.FLUSHING
    input_channel := 0
    input_address := a0
    file_extension := e0
    next_chunk_size := 0
    file_chunk := k0 }

/-- Modelled from the spec (section 4.1; flushSerial body absent from
src/): the synchronizer loop.  Given the current consecutive-match counter
and the pending input bytes, it consumes one byte at a time, incrementing
the counter on a sentinel byte and resetting it to zero otherwise; when the
counter reaches FLUSH_COUNT it stops consuming and returns the unconsumed
remainder.  If the input runs out first it returns none. -/
def flushLoop : Nat → List Nat → Option (List Nat)
  | count, [] => if FLUSH_COUNT ≤ count then some [] else none
  | count, b :: rest =>
    if FLUSH_COUNT ≤ count then some (b :: rest)
    else if b = FLUSH_CONST then flushLoop (count + 1) rest
    else flushLoop 0 rest

/-- Modelled from the spec (section 4.1; flushSerial body absent from
src/): running the Stream Synchronizer on the state.  On success the
serial state becomes READING and the unconsumed bytes are returned; if the
input is exhausted without a sentinel run the state is unchanged and the
whole input has been consumed. -/
def flushSerial (s : SerialIOState) (input : List Nat) :
    SerialIOState × List Nat :=
  match flushLoop 0 input with
  | some rest => ({ s with serial_state := serial_state_e.READING }, rest)
  | none => (s, [])

/-- Modelled from the spec (section 4.2; handshake body absent from src/):
handshake() writes exactly one reserved character to the outbound channel
and performs no read; state and input are untouched and the emitted bytes
are exactly one HANDSHAKE_CHAR. -/
def handshake (s : SerialIOState) (input : List Nat) :
    SerialIOState × List Nat × List Nat :=
  (s, input, [HANDSHAKE_CHAR])

/-- Modelled from the spec (sections 4.3 and 7; setConfig body absent from
src/): the Configuration Decoder reads 1 channel byte, validates it
against [0, NUM_CHANNELS), then reads 4 address bytes assembled little
endian via the uint32_serial_u views and 10 extension bytes, emitting a
HANDSHAKE_CHAR after each latched field; on completion the board state
becomes READY.  An out-of-range channel is a protocol error: the serial
state is forced back to FLUSHING and nothing is latched.  The result is
the new state, the unconsumed input and the emitted bytes; none models a
blocked read on insufficient input. -/
def setConfig (s : SerialIOState) :
    List Nat → Option (SerialIOState × List Nat × List Nat)
  | [] => none
  | c :: rest =>
    if NUM_CHANNELS ≤ c then
      some ({ s with serial_state := serial_state_e.FLUSHING }, rest, [])
    else
      match rest with
      | b0 :: b1 :: b2 :: b3 :: rest2 =>
        if EXTENSION_BYTES ≤ rest2.length then
          some ({ s with
                    input_channel := c
                    input_address := uint32_serial_num b0 b1 b2 b3
                    file_extension := rest2.take EXTENSION_BYTES
                    board_state := board_state_e.READY },
                rest2.drop EXTENSION_BYTES,
                [HANDSHAKE_CHAR, HANDSHAKE_CHAR, HANDSHAKE_CHAR])
        else none
      | _ => none

/-- Modelled from the spec (sections 4.4 and 7; setFileChunk body absent
from src/): the Chunk Decoder reads one length byte n; a length above
MAX_CHUNK_CHARS is a protocol error rejected before any buffer write, with
the serial state forced back to FLUSHING; otherwise exactly n payload
bytes are read into file_chunk, overwriting the prior content, and a
HANDSHAKE_CHAR is emitted.  The result is the new state, the unconsumed
input and the emitted bytes; none models a blocked read. -/
def setFileChunk (s : SerialIOState) :
    List Nat → Option (SerialIOState × List Nat × List Nat)
  | [] => none
  | n :: rest =>
    if MAX_CHUNK_CHARS < n then
      some ({ s with serial_state := serial_state_e.FLUSHING }, rest, [])
    else if rest.length < n then none
    else
      some ({ s with
                next_chunk_size := n
                file_chunk := rest.take n },
            rest.drop n, [HANDSHAKE_CHAR])

/-- Modelled from the spec (sections 3 and 6; emptyFileChunk body absent
from src/): the chunk buffer is considered logically empty after the relay
step. -/
def emptyFileChunk (s : SerialIOState) : SerialIOState :=
  { s with next_chunk_size := 0, file_chunk := [] }

/-- Modelled from the spec (section 3; emptyFileExtension body absent from
src/): clears the extension buffer. -/
def emptyFileExtension (s : SerialIOState) : SerialIOState :=
  { s with file_extension := [] }

/-- Modelled from the spec (section 6; softReset body absent from src/): a
soft reset clears the file-phase buffers but is not specified to clear the
radio configuration, and the link state never reverts. -/
def softReset (s : SerialIOState) : SerialIOState :=
  { s with next_chunk_size := 0, file_chunk := [], file_extension := [] }

/-- Modelled from the spec (section 4.5; getExpectedRadioState body absent
from src/): a pure function of the current protocol state answering
whether the radio should transmit or receive; returned together with the
untouched state to make the absence of mutation explicit. -/
def getExpectedRadioState (s : SerialIOState) : Nat × SerialIOState :=
  (match s.board_state with
   | board_state_e.CONFIG => RX_MODE
   | board_state_e.READY => TX_MODE, s)

/-- The operations of the state machine, each applied with the input bytes
it may consume. -/
inductive SerialOp
  | flushOp (input : List Nat)
  | configOp (input : List Nat)
  | chunkOp (input : List Nat)
  | handshakeOp
  | emptyChunkOp
  | emptyExtOp
  | softResetOp

/-- One step of the state machine: how each operation transforms the
private state (a blocked decoder leaves the state unchanged). -/
def stepOp (op : SerialOp) (s : SerialIOState) : SerialIOState :=
  match op with
  | SerialOp.flushOp input => (flushSerial s input).1
  | SerialOp.configOp input =>
    match setConfig s input with
    | some r => r.1
    | none => s
  | SerialOp.chunkOp input =>
    match setFileChunk s input with
    | some r => r.1
    | none => s
  | SerialOp.handshakeOp => (handshake s []).1
  | SerialOp.emptyChunkOp => emptyFileChunk s
  | SerialOp.emptyExtOp => emptyFileExtension s
  | SerialOp.softResetOp => softReset s

/-- A sentinel run of length k starts the list: the first k bytes all
equal FLUSH_CONST. -/
def startsWithRun : Nat → List Nat → Bool
  | 0, _ => true
  | _ + 1, [] => false
  | k + 1, b :: rest => (b == FLUSH_CONST) && startsWithRun k rest

/-- Somewhere in the list, k consecutive bytes all equal FLUSH_CONST. -/
def hasRun (k : Nat) : List Nat → Bool
  | [] => decide (k = 0)
  | b :: rest => startsWithRun k (b :: rest) || hasRun k rest

/-- The declared bit widths of the sub-fields of the Enhanced ShockBurst
overlay packet_u (source lines 180-197): preamble is a uint8_t, addr a
24-bit field, packet_ctrl a 9-bit field, byte1 and byte2 are uint8_t, and
byte3 a 7-bit field. -/
structure PacketFieldWidths where
  preamble : Nat
  addr : Nat
  packet_ctrl : Nat
  byte1 : Nat
  byte2 : Nat
  byte3 : Nat

/-- The widths as declared in the source. -/
def packet_u_widths : PacketFieldWidths :=
  { preamble := 8, addr := 24, packet_ctrl := 9
    byte1 := 8, byte2 := 8, byte3 := 7 }

/-- The width of the overlaid uint64_t data_frame (source line 182). -/
def data_frame_bits : Nat := 64

/-- The wire format of the configuration record (spec section 6): one
channel byte, then the four address bytes least significant first via the
bytes view of uint32_serial_u, then the ten extension bytes. -/
def encodeConfig (c a : Nat) (ext : List Nat) : List Nat :=
  c :: (uint32_serial_bytes a ++ ext)

/- ------------------------------------------------------------------ -/
/- Auxiliary lemmas                                                   -/
/- ------------------------------------------------------------------ -/

/-- A successful setConfig leaves the board state alone (rejection path)
or sets it to READY (completion path). -/
lemma setConfig_board (s : SerialIOState) (input : List Nat)
    (r : SerialIOState × List Nat × List Nat)
    (h : setConfig s input = some r) :
    r.1.board_state = s.board_state ∨
      r.1.board_state = board_state_e.READY := by
  cases input with
  | nil => simp [setConfig] at h
  | cons c rest =>
    simp only [setConfig] at h
    split at h
    · rw [Option.some_inj] at h
      subst h
      left
      rfl
    · split at h
      · split at h
        · rw [Option.some_inj] at h
          subst h
          right
          rfl
        · simp at h
      · simp at h

/-- A successful setFileChunk never touches the board state. -/
lemma setFileChunk_board (s : SerialIOState) (input : List Nat)
    (r : SerialIOState × List Nat × List Nat)
    (h : setFileChunk s input = some r) :
    r.1.board_state = s.board_state := by
  cases input with
  | nil => simp [setFileChunk] at h
  | cons n rest =>
    simp only [setFileChunk] at h
    split at h
    · rw [Option.some_inj] at h
      subst h
      rfl
    · split at h
      · simp at h
      · rw [Option.some_inj] at h
        subst h
        rfl

/-- flushSerial never touches the board state. -/
lemma flushSerial_board (s : SerialIOState) (input : List Nat) :
    (flushSerial s input).1.board_state = s.board_state := by
  simp only [flushSerial]
  cases flushLoop 0 input with
  | none => rfl
  | some rest => rfl

/-- Once the counter has reached FLUSH_COUNT the loop consumes nothing. -/
lemma flushLoop_done (count : Nat) (l : List Nat) (h : FLUSH_COUNT ≤ count) :
    flushLoop count l = some l := by
  cases l with
  | nil => simp [flushLoop, h]
  | cons b rest => simp [flushLoop, h]

/-- A run at the head of the list is a run in the list. -/
lemma hasRun_of_startsWithRun (k : Nat) (l : List Nat)
    (h : startsWithRun k l = true) : hasRun k l = true := by
  cases l with
  | nil =>
    cases k with
    | zero => simp [hasRun]
    | succ k => simp [startsWithRun] at h
  | cons b rest => simp [hasRun, h]

/-- If the loop synchronizes, then either the input begins with the
missing part of the run, or the input contains a full run. -/
lemma flushLoop_some_run (l : List Nat) :
    ∀ count r, flushLoop count l = some r →
      startsWithRun (FLUSH_COUNT - count) l = true ∨
        hasRun FLUSH_COUNT l = true := by
  induction l with
  | nil =>
    intro count r h
    simp only [flushLoop] at h
    by_cases hc : FLUSH_COUNT ≤ count
    · left
      have : FLUSH_COUNT - count = 0 := Nat.sub_eq_zero_of_le hc
      simp [this, startsWithRun]
    · simp [hc] at h
  | cons b rest ih =>
    intro count r h
    simp only [flushLoop] at h
    by_cases hc : FLUSH_COUNT ≤ count
    · left
      have : FLUSH_COUNT - count = 0 := Nat.sub_eq_zero_of_le hc
      simp [this, startsWithRun]
    · simp only [hc, if_false] at h
      by_cases hb : b = FLUSH_CONST
      · simp only [hb, if_true] at h
        rcases ih (count + 1) r h with h1 | h1
        · left
          have hlt : count < FLUSH_COUNT := Nat.lt_of_not_le hc
          have hsub : FLUSH_COUNT - count = (FLUSH_COUNT - (count + 1)) + 1 := by
            omega
          rw [hsub]
          simp [startsWithRun, hb, h1]
        · right
          simp [hasRun, h1]
      · simp only [hb, if_false] at h
        rcases ih 0 r h with h1 | h1
        · right
          have : FLUSH_COUNT - 0 = FLUSH_COUNT := Nat.sub_zero _
          rw [this] at h1
          have := hasRun_of_startsWithRun FLUSH_COUNT rest h1
          simp [hasRun, this]
        · right
          simp [hasRun, h1]

/-- Reassembling the four little-endian bytes of a 32-bit value recovers
the value. -/
lemma uint32_bytes_roundtrip (a : Nat) (ha : a < 4294967296) :
    uint32_serial_num (a % 256) (a / 256 % 256) (a / 65536 % 256)
      (a / 16777216 % 256) = a := by
  simp only [uint32_serial_num]
  omega

/-- Shared helper: the synchronizer consumes a leading sentinel run of
length FLUSH_COUNT and leaves the remainder untouched. -/
lemma flushSerial_replicate (s : SerialIOState) (rest : List Nat) :
    flushSerial s (List.replicate FLUSH_COUNT FLUSH_CONST ++ rest) =
      ({ s with serial_state := serial_state_e.READING }, rest) := by
  have h5 : flushLoop 0 (List.replicate FLUSH_COUNT FLUSH_CONST ++ rest) =
      some rest := by
    show flushLoop 0
        (FLUSH_CONST :: FLUSH_CONST :: FLUSH_CONST :: FLUSH_CONST ::
          FLUSH_CONST :: rest) = some rest
    have hd := flushLoop_done FLUSH_COUNT rest (Nat.le_refl _)
    simp [flushLoop, FLUSH_COUNT, FLUSH_CONST] at hd ⊢
    exact hd
  simp [flushSerial, h5]

/- ------------------------------------------------------------------ -/
/- Claim theorems                                                     -/
/- ------------------------------------------------------------------ -/

/-- Claim C1: for every input byte stream that begins with 5 consecutive
sentinel bytes (FLUSH_CONST = 9) followed by arbitrary data, the Stream
Synchronizer reaches the Synchronized (READING) state after consuming
precisely those 5 bytes, and the 6th byte onward is left unconsumed and
not re-scanned for sentinels. -/
theorem flushSerial_five_sentinels_sync (s : SerialIOState)
    (rest : List Nat) :
    flushSerial s (List.replicate FLUSH_COUNT FLUSH_CONST ++ rest) =
      ({ s with serial_state := serial_state_e.READING }, rest) :=
  flushSerial_replicate s rest

/-- Claim C2: on any input containing no run of FLUSH_COUNT consecutive
sentinel bytes, the Stream Synchronizer started in the FLUSHING state
never reaches READING; and the consecutive-match counter is reset to zero
by every non-sentinel byte. -/
theorem flushSerial_no_run_no_sync (s : SerialIOState) (l : List Nat)
    (hs : s.serial_state = serial_state_e.FLUSHING)
    (h : hasRun FLUSH_COUNT l = false) :
    (flushSerial s l).1.serial_state = serial_state_e.FLUSHING ∧
    (∀ count b rest, ¬ FLUSH_COUNT ≤ count → b ≠ FLUSH_CONST →
        flushLoop count (b :: rest) = flushLoop 0 rest) := by
  constructor
  · cases hl : flushLoop 0 l with
    | none => simp [flushSerial, hl, hs]
    | some r =>
      rcases flushLoop_some_run l 0 r hl with h1 | h1
      · rw [Nat.sub_zero] at h1
        have h2 := hasRun_of_startsWithRun _ _ h1
        rw [h2] at h
        cases h
      · rw [h1] at h
        cases h
  · intro count b rest hc hb
    simp [flushLoop, hc, hb]

/-- Witness for C2 at a concrete input with runs of at most 4. -/
theorem flushSerial_no_run_no_sync_witness :
    (initSerialIOState 0 [] []).serial_state = serial_state_e.FLUSHING ∧
    hasRun FLUSH_COUNT [9, 9, 9, 9, 8, 9, 9, 9, 9] = false ∧
    (flushSerial (initSerialIOState 0 [] [])
        [9, 9, 9, 9, 8, 9, 9, 9, 9]).1.serial_state =
      serial_state_e.FLUSHING :=
  ⟨by decide, by decide,
    (flushSerial_no_run_no_sync (initSerialIOState 0 [] [])
      [9, 9, 9, 9, 8, 9, 9, 9, 9] (by decide) (by decide)).1⟩

/-- Claim C3: a declared chunk length of 225 or more (above
MAX_CHUNK_CHARS = 224) is rejected as a protocol error before any write to
the file_chunk buffer: the buffer and the stored chunk size are unchanged
and the serial state is forced back to FLUSHING. -/
theorem setFileChunk_reject_overlong (s : SerialIOState) (n : Nat)
    (rest : List Nat) (h : 225 ≤ n) :
    ∃ s1, setFileChunk s (n :: rest) = some (s1, rest, []) ∧
      s1.file_chunk = s.file_chunk ∧
      s1.next_chunk_size = s.next_chunk_size ∧
      s1.serial_state = serial_state_e.FLUSHING := by
  have hn : MAX_CHUNK_CHARS < n := by
    simp only [MAX_CHUNK_CHARS]
    omega
  exact ⟨{ s with serial_state := serial_state_e.FLUSHING },
    by simp [setFileChunk, hn], rfl, rfl, rfl⟩

/-- Witness for C3 at length 250. -/
theorem setFileChunk_reject_overlong_witness :
    (225 : Nat) ≤ 250 ∧
    ∃ s1, setFileChunk (initSerialIOState 0 [] []) (250 :: [1, 2]) =
        some (s1, [1, 2], []) ∧
      s1.file_chunk = (initSerialIOState 0 [] []).file_chunk ∧
      s1.next_chunk_size = (initSerialIOState 0 [] []).next_chunk_size ∧
      s1.serial_state = serial_state_e.FLUSHING :=
  ⟨by decide,
    setFileChunk_reject_overlong (initSerialIOState 0 [] []) 250 [1, 2]
      (by decide)⟩

/-- Counterexample for C4: the handshake character is not distinct from
every legal channel value: 9 is a legal channel (9 < NUM_CHANNELS = 125)
and HANDSHAKE_CHAR equals 9. -/
theorem handshake_char_not_distinct :
    ¬ (∀ c : Nat, c < NUM_CHANNELS → HANDSHAKE_CHAR ≠ c) := by
  intro hall
  exact hall 9 (by decide) (by decide)

/-- Claim C4 (amended): handshake() writes exactly one reserved character
(HANDSHAKE_CHAR = 9, the tab character) to the outbound channel and
performs no read, leaving the state untouched; however this character is
not distinct from legal data values: it lies inside both the legal channel
range [0, NUM_CHANNELS) and the legal chunk-length range
[0, MAX_CHUNK_CHARS]. -/
theorem handshake_writes_one_char (s : SerialIOState) (input : List Nat) :
    handshake s input = (s, input, [HANDSHAKE_CHAR]) ∧
    HANDSHAKE_CHAR < NUM_CHANNELS ∧ HANDSHAKE_CHAR ≤ MAX_CHUNK_CHARS :=
  ⟨rfl, by decide, by decide⟩

/-- Claim C10: the declared widths of the packet_u sub-fields (preamble 8,
addr 24, packet_ctrl 9, byte1 8, byte2 8, byte3 7) sum to exactly the 64
bits of the overlaid uint64_t data_frame, so the named fields cover the
whole frame with no unaccounted bits. -/
theorem packet_u_widths_cover_frame :
    packet_u_widths.preamble + packet_u_widths.addr +
      packet_u_widths.packet_ctrl + packet_u_widths.byte1 +
      packet_u_widths.byte2 + packet_u_widths.byte3 = data_frame_bits := by
  decide

/-- Claim C9: getExpectedRadioState is a pure function of the protocol
state: it returns either RX_MODE (0) or TX_MODE (1), never any other
value, and the state it hands back is the state it was given, every field
unchanged. -/
theorem getExpectedRadioState_pure (s : SerialIOState) :
    ((getExpectedRadioState s).1 = RX_MODE ∨
      (getExpectedRadioState s).1 = TX_MODE) ∧
    (getExpectedRadioState s).2 = s := by
  refine ⟨?_, rfl⟩
  cases h : s.board_state with
  | CONFIG => left; simp [getExpectedRadioState, h]
  | READY => right; simp [getExpectedRadioState, h]

/-- A successful setConfig either leaves input_channel untouched (the
rejection path) or stores a value below NUM_CHANNELS. -/
lemma setConfig_channel_range (s : SerialIOState) (input : List Nat)
    (r : SerialIOState × List Nat × List Nat)
    (h : setConfig s input = some r) :
    r.1.input_channel = s.input_channel ∨
      r.1.input_channel < NUM_CHANNELS := by
  cases input with
  | nil => simp [setConfig] at h
  | cons c rest =>
    simp only [setConfig] at h
    split at h
    · rw [Option.some_inj] at h
      subst h
      left
      rfl
    · rename_i hc
      split at h
      · split at h
        · rw [Option.some_inj] at h
          subst h
          right
          exact Nat.lt_of_not_le hc
        · simp at h
      · simp at h

/-- Claim C5: the Configuration Decoder accepts a channel byte c exactly
when c < NUM_CHANNELS = 125, that is c in [0, 124]; an out-of-range
channel is a protocol error forcing the serial state back to FLUSHING with
nothing latched, an in-range channel with a complete record is stored
verbatim (no clamping), and no successful call ever leaves an out-of-range
value in input_channel. -/
theorem setConfig_channel_validated (s : SerialIOState) (c : Nat)
    (rest : List Nat) :
    (NUM_CHANNELS ≤ c →
      setConfig s (c :: rest) =
        some ({ s with serial_state := serial_state_e.FLUSHING }, rest,
          [])) ∧
    (c < NUM_CHANNELS → ADDRESS_BYTES + EXTENSION_BYTES ≤ rest.length →
      ∃ s1 rem out, setConfig s (c :: rest) = some (s1, rem, out) ∧
        s1.input_channel = c ∧ s1.board_state = board_state_e.READY) ∧
    (∀ s1 rem out, setConfig s (c :: rest) = some (s1, rem, out) →
      s1.input_channel = s.input_channel ∨
        s1.input_channel < NUM_CHANNELS) := by
  refine ⟨?_, ?_, ?_⟩
  · intro hc
    simp [setConfig, hc]
  · intro hc hlen
    cases rest with
    | nil => simp [ADDRESS_BYTES, EXTENSION_BYTES] at hlen
    | cons b0 r1 =>
      cases r1 with
      | nil => simp [ADDRESS_BYTES, EXTENSION_BYTES] at hlen
      | cons b1 r2 =>
        cases r2 with
        | nil => simp [ADDRESS_BYTES, EXTENSION_BYTES] at hlen
        | cons b2 r3 =>
          cases r3 with
          | nil => simp [ADDRESS_BYTES, EXTENSION_BYTES] at hlen
          | cons b3 rest2 =>
            have h10 : EXTENSION_BYTES ≤ rest2.length := by
              simp [ADDRESS_BYTES, EXTENSION_BYTES] at hlen ⊢
              omega
            refine ⟨{ s with
                input_channel := c
                input_address := uint32_serial_num b0 b1 b2 b3
                file_extension := rest2.take EXTENSION_BYTES
                board_state := board_state_e.READY },
              rest2.drop EXTENSION_BYTES,
              [HANDSHAKE_CHAR, HANDSHAKE_CHAR, HANDSHAKE_CHAR],
              ?_, rfl, rfl⟩
            simp [setConfig, Nat.not_le.mpr hc, h10]
  · intro s1 rem out h
    exact setConfig_channel_range s (c :: rest) (s1, rem, out) h

/-- Witness for C5: the out-of-range channel byte 200 is rejected. -/
theorem setConfig_channel_validated_witness :
    NUM_CHANNELS ≤ 200 ∧
    setConfig (initSerialIOState 0 [] []) (200 :: [1, 2, 3]) =
      some ({ initSerialIOState 0 [] [] with
                serial_state := serial_state_e.FLUSHING }, [1, 2, 3], []) :=
  ⟨by decide,
    (setConfig_channel_validated (initSerialIOState 0 [] []) 200
      [1, 2, 3]).1 (by decide)⟩

/-- Claim C6: encoding a channel c in [0, 124], an address a in
[0, 2 ^ 32) and a 10-byte extension in the wire format (1 channel byte,
4 little-endian address bytes through the bytes view of uint32_serial_u,
10 extension bytes) and decoding with the Configuration Decoder returns
exactly the triple (c, a, extension); in particular the four address
bytes round-trip through the uint32_serial_u views. -/
theorem setConfig_roundtrip (s : SerialIOState) (c a : Nat)
    (ext : List Nat) (hc : c < NUM_CHANNELS) (ha : a < 2 ^ 32)
    (he : ext.length = EXTENSION_BYTES) :
    setConfig s (encodeConfig c a ext) =
      some ({ s with
                input_channel := c
                input_address := a
                file_extension := ext
                board_state := board_state_e.READY },
            [], [HANDSHAKE_CHAR, HANDSHAKE_CHAR, HANDSHAKE_CHAR]) ∧
    uint32_serial_num (a % 256) (a / 256 % 256) (a / 65536 % 256)
      (a / 16777216 % 256) = a := by
  have ha4 : a < 4294967296 := by
    have h2 : (2 : Nat) ^ 32 = 4294967296 := by norm_num
    rw [h2] at ha
    exact ha
  have hrt := uint32_bytes_roundtrip a ha4
  refine ⟨?_, hrt⟩
  have hext_take : ext.take EXTENSION_BYTES = ext := by
    rw [← he]
    exact List.take_length ext
  have hext_drop : ext.drop EXTENSION_BYTES = [] := by
    rw [← he]
    exact List.drop_length ext
  simp only [encodeConfig, uint32_serial_bytes, List.cons_append,
    List.nil_append, setConfig]
  rw [if_neg (Nat.not_le.mpr hc), if_pos (Nat.le_of_eq he.symm)]
  rw [hrt, hext_take, hext_drop]

/-- Witness for C6 at channel 7, address 1, extension txt padded with
zeros (the scenario of spec section 8). -/
theorem setConfig_roundtrip_witness :
    (7 : Nat) < NUM_CHANNELS ∧ (1 : Nat) < 2 ^ 32 ∧
    ([116, 120, 116, 0, 0, 0, 0, 0, 0, 0] : List Nat).length =
      EXTENSION_BYTES ∧
    setConfig (initSerialIOState 0 [] [])
        (encodeConfig 7 1 [116, 120, 116, 0, 0, 0, 0, 0, 0, 0]) =
      some ({ initSerialIOState 0 [] [] with
                input_channel := 7
                input_address := 1
                file_extension := [116, 120, 116, 0, 0, 0, 0, 0, 0, 0]
                board_state := board_state_e.READY },
            [], [HANDSHAKE_CHAR, HANDSHAKE_CHAR, HANDSHAKE_CHAR]) :=
  ⟨by decide, by decide, by decide,
    (setConfig_roundtrip (initSerialIOState 0 [] []) 7 1
      [116, 120, 116, 0, 0, 0, 0, 0, 0, 0]
      (by decide) (by decide) (by decide)).1⟩

/-- Claim C7: the board state starts as CONFIG at construction, every
operation of the state machine preserves READY (in particular soft reset
and resynchronization never move it back to CONFIG), and the only way the
board state becomes READY is a successful configuration decode. -/
theorem board_state_ready_once :
    (∀ a0 e0 k0,
      (initSerialIOState a0 e0 k0).board_state = board_state_e.CONFIG) ∧
    (∀ op s, s.board_state = board_state_e.READY →
      (stepOp op s).board_state = board_state_e.READY) ∧
    (∀ op s, (stepOp op s).board_state = board_state_e.READY →
      s.board_state = board_state_e.READY ∨
        ∃ input r, op = SerialOp.configOp input ∧
          setConfig s input = some r ∧
          r.1.board_state = board_state_e.READY) := by
  refine ⟨fun a0 e0 k0 => rfl, ?_, ?_⟩
  · intro op s h
    cases op with
    | flushOp input =>
      simp only [stepOp]
      rw [flushSerial_board]
      exact h
    | configOp input =>
      simp only [stepOp]
      cases hr : setConfig s input with
      | none => exact h
      | some r =>
        rcases setConfig_board s input r hr with h1 | h1
        · rw [h1]
          exact h
        · exact h1
    | chunkOp input =>
      simp only [stepOp]
      cases hr : setFileChunk s input with
      | none => exact h
      | some r =>
        rw [setFileChunk_board s input r hr]
        exact h
    | handshakeOp => exact h
    | emptyChunkOp => exact h
    | emptyExtOp => exact h
    | softResetOp => exact h
  · intro op s h
    cases op with
    | flushOp input =>
      left
      simp only [stepOp] at h
      rw [flushSerial_board] at h
      exact h
    | configOp input =>
      simp only [stepOp] at h
      revert h
      cases hr : setConfig s input with
      | none =>
        intro h
        left
        exact h
      | some r =>
        intro h
        right
        exact ⟨input, r, rfl, hr, h⟩
    | chunkOp input =>
      left
      simp only [stepOp] at h
      revert h
      cases hr : setFileChunk s input with
      | none =>
        intro h
        exact h
      | some r =>
        intro h
        rw [setFileChunk_board s input r hr] at h
        exact h
    | handshakeOp => left; exact h
    | emptyChunkOp => left; exact h
    | emptyExtOp => left; exact h
    | softResetOp => left; exact h

/-- Witness for C7: soft reset on a READY state keeps it READY. -/
theorem board_state_ready_once_witness :
    (stepOp SerialOp.softResetOp
        { initSerialIOState 0 [] [] with
            board_state := board_state_e.READY }).board_state =
      board_state_e.READY :=
  board_state_ready_once.2.1 SerialOp.softResetOp
    { initSerialIOState 0 [] [] with board_state := board_state_e.READY }
    rfl

/-- Claim C8: from a Synchronized (READING) state, a chunk-length byte of
250 forces the serial state back to FLUSHING with the partial frame
discarded (nothing latched, nothing emitted), and a subsequent run of 5
sentinel bytes restores READING within the same process. -/
theorem chunk_overlength_resync (s : SerialIOState) (rest more : List Nat)
    (h : s.serial_state = serial_state_e.READING) :
    ∃ s1, setFileChunk s (250 :: rest) = some (s1, rest, []) ∧
      s1.serial_state = serial_state_e.FLUSHING ∧
      flushSerial s1 (List.replicate FLUSH_COUNT FLUSH_CONST ++ more) =
        ({ s1 with serial_state := serial_state_e.READING }, more) := by
  refine ⟨{ s with serial_state := serial_state_e.FLUSHING }, ?_, rfl, ?_⟩
  · have hn : MAX_CHUNK_CHARS < 250 := by
      simp [MAX_CHUNK_CHARS]
    simp [setFileChunk, hn]
  · exact flushSerial_replicate _ _

/-- Witness for C8 from a concrete READING state. -/
theorem chunk_overlength_resync_witness :
    ({ initSerialIOState 0 [] [] with
        serial_state := serial_state_e.READING } :
      SerialIOState).serial_state = serial_state_e.READING ∧
    ∃ s1, setFileChunk { initSerialIOState 0 [] [] with
          serial_state := serial_state_e.READING } (250 :: []) =
        some (s1, [], []) ∧
      s1.serial_state = serial_state_e.FLUSHING ∧
      flushSerial s1 (List.replicate FLUSH_COUNT FLUSH_CONST ++ []) =
        ({ s1 with serial_state := serial_state_e.READING }, []) :=
  ⟨rfl,
    chunk_overlength_resync
      { initSerialIOState 0 [] [] with
          serial_state := serial_state_e.READING } [] [] rfl⟩
